import Mathlib

/-!
# Verification of the tau-bench enhanced-evaluation core

A shallow embedding, in Lean 4, of the evaluation pipeline of the
tau-bench repository:

* `tau_bench/evaluation/error_analysis.py`     (`ErrorAnalyzer`)
* `tau_bench/evaluation/composite_scoring.py`  (`CompositeScorer`)
* `tau_bench/evaluation/efficiency_metrics.py` (`EfficiencyTracker`)
* `tau_bench/evaluation/enhanced_evaluator.py` (`EnhancedEvaluator`)
* `tau_bench/run.py`                           (trial runner and `display_metrics`)

Modelling conventions:

* Python floats are modelled by `ℚ`; `0.1` is `1/10`, etc.  All the
  quantities the theorems talk about are produced by exact decimal
  arithmetic in the source, so `ℚ` is faithful.
* A trajectory message is `{role, content, tool_calls}`.  A missing
  `content` key defaults to `""` (as `message.get('content', '')` does)
  and a missing `tool_calls` key is the empty list (`'tool_calls' in
  message and message['tool_calls']` is falsy exactly when the list is
  empty or absent).
* Python dictionaries with string keys are association lists in
  insertion order; dict truthiness is non-emptiness.
* Python `set` values derived from lists are represented by the
  first-occurrence deduplication `focc` of the underlying list;
  membership and cardinality agree with the Python sets.  Where the
  source converts a set back to a list (`list(missing_actions)`) the
  iteration order of a Python set is implementation defined, so the
  embedding fixes the deterministic first-occurrence order; no theorem
  depends on the order inside those lists.
* The f-string `description` / `root_cause` / `suggested_fix` fields of
  `ErrorAnalysis` are fixed text around dynamic data; the embedding
  keeps the dynamic data (the action-name lists and the completion
  ratio) as structured fields `actionNames` and `completionFrac` and
  elides the surrounding fixed prose.
* Wall-clock quantities (`time.time()`-derived `total_duration`,
  timestamps) are not modelled; no claim refers to them.
-/

namespace TauBench

/-! Section: string helpers.

Case-insensitive substring search, as performed by
`phrase in content.lower()` and `re.search(pattern, content,
re.IGNORECASE)` in the source.  Every regular expression appearing in
`ErrorAnalyzer._initialize_error_patterns` is a sequence of literal
pieces joined by `.*`, so `re.search` on those patterns is exactly
"the pieces occur in order"; `matchPieces` implements that. -/

/-- Truth of `startsWithCh n h`: iff the character list `n` is an initial
segment of `h`. -/
def startsWithCh : List Char → List Char → Bool
  | [], _ => true
  | _ :: _, [] => false
  | a :: as, b :: bs => a == b && startsWithCh as bs

/-- Containment `containsSeq n h`: the character list `n` occurs contiguously in `h`
(Python `n in h` on strings). -/
def containsSeq (needle : List Char) : List Char → Bool
  | [] => startsWithCh needle []
  | b :: bs => startsWithCh needle (b :: bs) || containsSeq needle bs

/-- Lower-case the characters of a string (Python `str.lower`). -/
def lowerChars (s : String) : List Char :=
  s.data.map Char.toLower

/-- Substring test `substrIn needle hay`: case-insensitive substring test,
`needle in hay.lower()` for an already lower-case `needle`. -/
def substrIn (needle : String) (hay : String) : Bool :=
  containsSeq needle.data (lowerChars hay)

/-- Number of start positions in `h` at which `n` occurs. -/
def countOccAux (needle : List Char) : List Char → ℕ
  | [] => if startsWithCh needle [] then 1 else 0
  | b :: bs => (if startsWithCh needle (b :: bs) then 1 else 0) + countOccAux needle bs

/-- Case-insensitive count of occurrences of `needle` in `hay`.  Used
only by the specification-side reading of "per occurrence" deductions. -/
def countOcc (needle : String) (hay : String) : ℕ :=
  countOccAux needle.data (lowerChars hay)

/-- Drop everything up to and including the first occurrence of
`needle`; `none` if it does not occur. -/
def dropAfterMatch (needle : List Char) : List Char → Option (List Char)
  | [] => if startsWithCh needle [] then some [] else none
  | b :: bs =>
    if startsWithCh needle (b :: bs) then some ((b :: bs).drop needle.length)
    else dropAfterMatch needle bs

/-- Matching `matchPieces ps h`: the literal pieces `ps` occur in `h` in order,
one after the other — the semantics of `re.search` on the pattern
`p₀.*p₁.*⋯.*pₙ`. -/
def matchPieces : List String → List Char → Bool
  | [], _ => true
  | p :: ps, s =>
    match dropAfterMatch p.data s with
    | some rest => matchPieces ps rest
    | none => false

/-! Section: shared data model. -/

/-- A trajectory message: `{role, content, tool_calls}`.  `toolCalls`
lists the function names of the embedded tool-call requests. -/
structure Message where
  role : String
  content : String
  toolCalls : List String := []
deriving DecidableEq

/-- An action `{name, arguments}`; only the name is ever inspected by
the evaluation core (`action.get('name', '')`). -/
structure Action where
  name : String
deriving DecidableEq

/-- First-occurrence deduplication: the list of distinct elements of
`l` in order of first occurrence.  This is the key order of a Python
dict built by inserting the elements of `l` left to right, and the
membership/cardinality of `set(l)`. -/
def focc {α : Type} [DecidableEq α] : List α → List α
  | [] => []
  | x :: t => x :: (focc t).filter (fun y => decide (y ≠ x))

/-- Names of a list of actions (`{action.get('name', '') for action in l}`
before deduplication). -/
def namesOf (actions : List Action) : List String :=
  actions.map (fun a => a.name)

/-- Cardinality of `set xs ∩ set ys`. -/
def interCard (xs ys : List String) : ℕ :=
  ((focc xs).filter (fun n => ys.contains n)).length

/-- Difference `set xs − set ys`, listed in first-occurrence order of `xs`. -/
def diffList (xs ys : List String) : List String :=
  (focc xs).filter (fun n => !(ys.contains n))

/-! Section: ErrorAnalyzer, from `error_analysis.py`. -/

/-- The `ErrorCategory` enumeration. -/
inductive ErrorCategory where
  | POLICY_INTERPRETATION
  | TOOL_USAGE
  | CONVERSATION_FLOW
  | CONTEXT_UNDERSTANDING
  | SYSTEM_ERROR
  | RIGID_INTERPRETATION
  | CONTEXT_MISUNDERSTANDING
  | POLICY_VIOLATION
  | WRONG_ARGUMENTS
  | MISSING_TOOLS
  | TOOL_FAILURE
  | PREMATURE_TRANSFER
  | GOAL_PARTIAL_COMPLETION
  | INEFFICIENT_FLOW
  | USER_INTENT_MISUNDERSTANDING
  | AMBIGUOUS_REQUEST_HANDLING
  | RUNTIME_ERROR
  | ENVIRONMENT_ERROR
deriving DecidableEq

/-- The `ErrorSeverity` enumeration. -/
inductive ErrorSeverity where
  | LOW
  | MEDIUM
  | HIGH
  | CRITICAL
deriving DecidableEq

/-- One error finding.  `actionNames` is the action-name list embedded
in the description of the action-diff findings, `completionFrac` the
completion ratio embedded in the goal-completion finding; both are `[]` / `none`
for the other findings. -/
structure ErrorAnalysis where
  category : ErrorCategory
  severity : ErrorSeverity
  confidence : ℚ
  actionNames : List String := []
  completionFrac : Option ℚ := none
deriving DecidableEq

/-- One row of `ErrorAnalyzer._initialize_error_patterns`: a label, the
regex patterns (each a list of literal pieces standing for
`piece₀.*piece₁.*⋯`), the category and the severity. -/
structure PatternGroup where
  label : String
  patterns : List (List String)
  category : ErrorCategory
  severity : ErrorSeverity

/-- The static pattern table, in dict insertion order. -/
def errorPatterns : List PatternGroup :=
  [ ⟨"policy_rigid",
      [["based on our policies"], ["unfortunately", "cannot"],
       ["not possible", "policy"], ["against", "policy"]],
      ErrorCategory.RIGID_INTERPRETATION, ErrorSeverity.MEDIUM⟩,
    ⟨"premature_transfer",
      [["transfer", "human"], ["human agent"], ["escalate", "case"]],
      ErrorCategory.PREMATURE_TRANSFER, ErrorSeverity.HIGH⟩,
    ⟨"tool_failure",
      [["error", "tool"], ["failed", "call"], ["tool", "not", "found"]],
      ErrorCategory.TOOL_FAILURE, ErrorSeverity.MEDIUM⟩,
    ⟨"context_confusion",
      [["i", "not", "understand"], ["unclear", "request"], ["could", "clarify"]],
      ErrorCategory.USER_INTENT_MISUNDERSTANDING, ErrorSeverity.MEDIUM⟩,
    ⟨"policy_violation",
      [["i", "recommend"], ["you", "should"], ["better", "to"], ["i", "think", "you"]],
      ErrorCategory.POLICY_VIOLATION, ErrorSeverity.LOW⟩ ]

/-- Findings produced by scanning one assistant message's (already
lower-cased) content against the full pattern table: one finding per
matched pattern, confidence 0.8. -/
def patternFindings (content : List Char) : List ErrorAnalysis :=
  (errorPatterns.map (fun g =>
    (g.patterns.filter (fun p => matchPieces p content)).map
      (fun _ => ({ category := g.category, severity := g.severity,
                   confidence := 8/10 } : ErrorAnalysis)))).flatten

/-- Embeds `ErrorAnalyzer._analyze_conversation_errors`. -/
def conversationErrors (conversation : List Message) : List ErrorAnalysis :=
  (conversation.map (fun m =>
    if m.role = "assistant" then patternFindings (lowerChars m.content) else [])).flatten

/-- Embeds `ErrorAnalyzer._analyze_action_errors`: the set diff findings. -/
def actionErrors (taskActions actualActions : List Action) : List ErrorAnalysis :=
  if taskActions = [] ∨ actualActions = [] then []
  else
    let missing := diffList (namesOf taskActions) (namesOf actualActions)
    let extra := diffList (namesOf actualActions) (namesOf taskActions)
    (if missing ≠ [] then
      [{ category := ErrorCategory.MISSING_TOOLS, severity := ErrorSeverity.HIGH,
         confidence := 9/10, actionNames := missing }] else []) ++
    (if extra ≠ [] then
      [{ category := ErrorCategory.WRONG_ARGUMENTS, severity := ErrorSeverity.MEDIUM,
         confidence := 8/10, actionNames := extra }] else [])

/-- Embeds `ErrorAnalyzer._analyze_tool_errors`: one MEDIUM finding per `tool`
message whose content contains "error" or "failed" (case-insensitive). -/
def toolErrors (conversation : List Message) : List ErrorAnalysis :=
  (conversation.map (fun m =>
    if m.role = "tool" ∧ (substrIn "error" m.content ∨ substrIn "failed" m.content) then
      [{ category := ErrorCategory.TOOL_FAILURE, severity := ErrorSeverity.MEDIUM,
         confidence := 9/10 }]
    else [])).flatten

/-- Embeds `ErrorAnalyzer._analyze_goal_completion_errors`. -/
def goalErrors (taskActions actualActions : List Action) : List ErrorAnalysis :=
  if taskActions ≠ [] ∧ actualActions ≠ [] then
    let matching := interCard (namesOf taskActions) (namesOf actualActions)
    let total := (focc (namesOf taskActions)).length
    if 0 < matching ∧ matching < total then
      let frac : ℚ := (matching : ℚ) / (total : ℚ)
      [{ category := ErrorCategory.GOAL_PARTIAL_COMPLETION,
         severity := if frac < 1/2 then ErrorSeverity.HIGH else ErrorSeverity.MEDIUM,
         confidence := 9/10, completionFrac := some frac }]
    else []
  else []

/-- Embeds `ErrorAnalyzer._analyze_system_errors`: one CRITICAL finding of
confidence 1.0 (the error message only feeds elided description text). -/
def systemErrors (_info : List (String × String)) : List ErrorAnalysis :=
  [{ category := ErrorCategory.RUNTIME_ERROR, severity := ErrorSeverity.CRITICAL,
     confidence := 1 }]

/-- Key membership in the dict: Python `'error' in error_info`. -/
def hasKey (k : String) (info : List (String × String)) : Bool :=
  info.any (fun p => p.1 == k)

/-- Embeds `ErrorAnalyzer.analyze_error`.  `error_info` is `None` or a dict;
the system pass runs only when `error_info and 'error' in error_info`
(non-empty dict that carries the key). -/
def analyzeError (binaryReward : ℚ) (conversation : List Message)
    (taskActions actualActions : List Action)
    (errorInfo : Option (List (String × String))) : List ErrorAnalysis :=
  if binaryReward = 1 then []
  else
    conversationErrors conversation ++
    actionErrors taskActions actualActions ++
    toolErrors conversation ++
    goalErrors taskActions actualActions ++
    (match errorInfo with
     | some info => if info ≠ [] ∧ hasKey "error" info then systemErrors info else []
     | none => [])

/-! Subsection: `ErrorAnalyzer.get_error_summary`.

`by_category[category] = by_category.get(category, 0) + 1` on a Python
dict: an existing key keeps its position, a new key is appended.
`max(d.items(), key=lambda x: x[1])` returns the first item attaining
the maximal count (Python's `max` replaces the running best only on a
strictly greater key). -/

/-- One dict update `d[k] = d.get(k, 0) + 1`, on an insertion-ordered
association list. -/
def bump {α : Type} [DecidableEq α] : List (α × ℕ) → α → List (α × ℕ)
  | [], s => [(s, 1)]
  | (k, v) :: t, s => if k = s then (k, v + 1) :: t else (k, v) :: bump t s

/-- Count the elements of `l` into an insertion-ordered dict. -/
def buildCounts {α : Type} [DecidableEq α] (l : List α) : List (α × ℕ) :=
  l.foldl bump []

/-- Python's `max(items, key=lambda x: x[1])`: the first pair attaining
the maximal second component (`none` on the empty list). -/
def pyMaxBySnd {α : Type} : List (α × ℕ) → Option (α × ℕ)
  | [] => none
  | [p] => some p
  | p :: q :: t =>
    match pyMaxBySnd (q :: t) with
    | some r => some (if p.2 < r.2 then r else p)
    | none => some p

/-- The summary dictionary returned by `get_error_summary`. -/
structure ErrorSummary where
  totalErrors : ℕ
  byCategory : List (ErrorCategory × ℕ)
  bySeverity : List (ErrorSeverity × ℕ)
  mostCommonCategory : Option ErrorCategory
  mostCommonSeverity : Option ErrorSeverity
deriving DecidableEq

/-- `ErrorAnalyzer.get_error_summary`. -/
def getErrorSummary (errors : List ErrorAnalysis) : ErrorSummary :=
  if errors = [] then ⟨0, [], [], none, none⟩
  else
    let byCategory := buildCounts (errors.map (fun e => e.category))
    let bySeverity := buildCounts (errors.map (fun e => e.severity))
    ⟨errors.length, byCategory, bySeverity,
      (pyMaxBySnd byCategory).map Prod.fst,
      (pyMaxBySnd bySeverity).map Prod.fst⟩

/-! Section: EfficiencyTracker, from `efficiency_metrics.py`. -/

/-- One recorded tool call (`EfficiencyTracker.record_tool_call` entry). -/
structure ToolCallRec where
  name : String
  success : Bool
  duration : ℚ
  tokensUsed : ℕ
deriving DecidableEq

/-- The mutable state of an `EfficiencyTracker`.  `started` models
`start_time is not None`; the wall-clock origin itself is not modelled. -/
structure TrackerState where
  started : Bool
  toolCalls : List ToolCallRec
  conversationTurns : ℕ
  totalTokens : ℕ
  transferToHuman : Bool
  responseTimes : List ℚ
deriving DecidableEq

/-- Embeds `EfficiencyTracker.__init__`. -/
def initTracker : TrackerState := ⟨false, [], 0, 0, false, []⟩

/-- Embeds `EfficiencyTracker.start_evaluation`. -/
def trackerStart (_s : TrackerState) : TrackerState := ⟨true, [], 0, 0, false, []⟩

/-- The static per-tool duration table of `_estimate_tool_duration`. -/
def toolDurations : List (String × ℚ) :=
  [ ("get_user_details", 1/10), ("get_order_details", 1/10),
    ("get_product_details", 1/10), ("find_user_id_by_email", 1/10),
    ("find_user_id_by_name_zip", 1/10),
    ("list_all_product_types", 3/10), ("list_all_airports", 3/10),
    ("search_direct_flight", 1/2), ("search_onestop_flight", 1/2),
    ("exchange_delivered_order_items", 1), ("return_delivered_order_items", 1),
    ("modify_pending_order_items", 1), ("modify_pending_order_address", 8/10),
    ("modify_pending_order_payment", 8/10), ("cancel_pending_order", 1/2),
    ("book_reservation", 12/10), ("update_reservation_flights", 1),
    ("update_reservation_passengers", 8/10), ("update_reservation_baggages", 8/10),
    ("cancel_reservation", 1/2),
    ("send_certificate", 1/2), ("transfer_to_human_agents", 2/10),
    ("calculate", 1/10), ("think", 1/10) ]

/-- Embeds `EfficiencyTracker._estimate_tool_duration`: table lookup with a
0.5-second default. -/
def estimateToolDuration (name : String) : ℚ :=
  ((toolDurations.find? (fun p => p.1 == name)).map Prod.snd).getD (1/2)

/-- Embeds `EfficiencyTracker._estimate_tokens`: 0 for empty content,
otherwise `(char_count + 10 + 50 * len(tool_calls)) // 4`, at least 1. -/
def estimateTokens (m : Message) : ℕ :=
  if m.content.length = 0 then 0
  else max 1 ((m.content.length + 10 + 50 * m.toolCalls.length) / 4)

/-- Embeds `EfficiencyTracker.record_tool_call` (defaults: `duration = 0.0`,
`tokens_used = 0`; a zero duration is replaced by the estimate). -/
def trackerRecordToolCall (s : TrackerState) (name : String) (success : Bool)
    (duration : ℚ) (tokensUsed : ℕ) : TrackerState :=
  let d := if duration = 0 then estimateToolDuration name else duration
  { s with toolCalls := s.toolCalls ++ [⟨name, success, d, tokensUsed⟩] }

/-- Embeds `EfficiencyTracker.record_turn` (defaults: `tokens_used = 0`,
`response_time = 0.0`). -/
def trackerRecordTurn (s : TrackerState) (m : Message) (tokensUsed : ℕ)
    (responseTime : ℚ) : TrackerState :=
  let tk := if tokensUsed = 0 then estimateTokens m else tokensUsed
  let rts :=
    if 0 < responseTime then s.responseTimes ++ [responseTime]
    else if m.role = "assistant" then
      s.responseTimes ++ [max (1/2) ((m.content.length : ℚ) / 1000)]
    else s.responseTimes
  let tr := s.transferToHuman ||
    (m.role == "assistant" &&
      (substrIn "transfer_to_human" m.content || substrIn "human agent" m.content))
  { s with conversationTurns := s.conversationTurns + 1,
           totalTokens := s.totalTokens + tk,
           responseTimes := rts,
           transferToHuman := tr }

/-- Embeds `EfficiencyTracker._calculate_conversation_efficiency`. -/
def calcConversationEfficiency (s : TrackerState) : ℚ :=
  if s.conversationTurns = 0 then 0
  else
    let lengthScore : ℚ :=
      if s.conversationTurns ≤ 20 then 1
      else if s.conversationTurns ≤ 40 then 8/10
      else if s.conversationTurns ≤ 60 then 6/10
      else 4/10
    let transferPenalty : ℚ := if s.transferToHuman then 3/10 else 0
    max 0 (lengthScore - transferPenalty)

/-- Embeds `EfficiencyTracker._calculate_tool_call_efficiency`. -/
def calcToolCallEfficiency (s : TrackerState) : ℚ :=
  if s.toolCalls = [] then 1/2
  else
    let n := s.toolCalls.length
    let countScore : ℚ :=
      if n ≤ 10 then 1
      else if n ≤ 20 then 8/10
      else if n ≤ 30 then 6/10
      else 4/10
    let successRate : ℚ := ((s.toolCalls.countP (fun c => c.success)) : ℚ) / (n : ℚ)
    (countScore + successRate) / 2

/-- The `EfficiencyMetrics` value object, without its two wall-clock
fields (`total_duration` and the timestamp are `time.time()`-derived
and not modelled). -/
structure EfficiencyMetrics where
  avgResponseTime : ℚ
  toolCallDuration : ℚ
  totalTurns : ℕ
  avgTurnsPerTask : ℚ
  conversationEfficiency : ℚ
  totalToolCalls : ℕ
  successfulToolCalls : ℕ
  toolCallSuccessRate : ℚ
  toolCallEfficiency : ℚ
  totalTokens : ℕ
  tokensPerTurn : ℚ
  costEstimate : ℚ
  transferToHuman : Bool
  transferRate : ℚ
  overallEfficiency : ℚ
deriving DecidableEq

/-- Embeds `EfficiencyTracker._empty_metrics`. -/
def emptyMetrics : EfficiencyMetrics :=
  ⟨0, 0, 0, 0, 0, 0, 0, 0, 0, 0, 0, 0, false, 0, 0⟩

/-- Embeds `EfficiencyTracker.calculate_metrics`. -/
def calculateMetrics (s : TrackerState) : EfficiencyMetrics :=
  if s.started = false then emptyMetrics
  else
    let avgResponseTime : ℚ :=
      if s.responseTimes = [] then 0
      else s.responseTimes.sum / (s.responseTimes.length : ℚ)
    let totalToolCalls := s.toolCalls.length
    let successfulToolCalls := s.toolCalls.countP (fun c => c.success)
    let toolCallSuccessRate : ℚ :=
      if 0 < totalToolCalls then (successfulToolCalls : ℚ) / (totalToolCalls : ℚ) else 1
    let toolCallDuration : ℚ := (s.toolCalls.map (fun c => c.duration)).sum
    let convEff := calcConversationEfficiency s
    let tcEff := calcToolCallEfficiency s
    let tokensPerTurn : ℚ :=
      if 0 < s.conversationTurns then (s.totalTokens : ℚ) / (s.conversationTurns : ℚ) else 0
    let costEstimate : ℚ := ((s.totalTokens : ℚ) / 1000) * (1/100)
    let overall : ℚ := convEff * (4/10) + tcEff * (4/10) + toolCallSuccessRate * (2/10)
    { avgResponseTime := avgResponseTime,
      toolCallDuration := toolCallDuration,
      totalTurns := s.conversationTurns,
      avgTurnsPerTask := (s.conversationTurns : ℚ),
      conversationEfficiency := convEff,
      totalToolCalls := totalToolCalls,
      successfulToolCalls := successfulToolCalls,
      toolCallSuccessRate := toolCallSuccessRate,
      toolCallEfficiency := tcEff,
      totalTokens := s.totalTokens,
      tokensPerTurn := tokensPerTurn,
      costEstimate := costEstimate,
      transferToHuman := s.transferToHuman,
      transferRate := if s.transferToHuman then 1 else 0,
      overallEfficiency := overall }

/-! Section: CompositeScorer, from `composite_scoring.py`. -/

/-- The mutable state of a `CompositeScorer` (its own bookkeeping,
parallel to the tracker).  `started` models `start_time is not None`. -/
structure ScorerState where
  started : Bool
  toolCalls : List (String × Bool)
  conversationTurns : ℕ
  transferToHuman : Bool
deriving DecidableEq

/-- Embeds the `CompositeScorer.__init__` / `start_evaluation` reset. -/
def scorerStart : ScorerState := ⟨true, [], 0, false⟩

/-- Embeds `CompositeScorer.record_tool_call`. -/
def scorerRecordToolCall (s : ScorerState) (name : String) (success : Bool) : ScorerState :=
  { s with toolCalls := s.toolCalls ++ [(name, success)] }

/-- Embeds `CompositeScorer.record_turn`. -/
def scorerRecordTurn (s : ScorerState) (m : Message) : ScorerState :=
  { s with conversationTurns := s.conversationTurns + 1,
           transferToHuman := s.transferToHuman ||
             (m.role == "assistant" && !(m.content == "") &&
               (substrIn "transfer_to_human" m.content || substrIn "human agent" m.content)) }

/-- Embeds `CompositeScorer._calculate_task_completion`. -/
def calcTaskCompletion (binaryReward : ℚ) (taskActions actualActions : List Action) : ℚ :=
  if binaryReward = 1 then 1
  else if taskActions = [] ∨ actualActions = [] then 0
  else
    let matching := interCard (namesOf taskActions) (namesOf actualActions)
    let total := (focc (namesOf taskActions)).length
    if total = 0 then 0
    else
      let frac : ℚ := (matching : ℚ) / (total : ℚ)
      let wrong := (diffList (namesOf actualActions) (namesOf taskActions)).length
      let penalty : ℚ := min (1/2) ((wrong : ℚ) * (1/10))
      max 0 (frac - penalty)

/-- The hedging phrases ("making up information" penalty list). -/
def hedgePhrases : List String :=
  ["i think", "i believe", "probably", "might be", "could be"]

/-- The subjective-recommendation phrases. -/
def recommendPhrases : List String :=
  ["i recommend", "you should", "i suggest", "better to"]

/-- Python `any(phrase in content for phrase in phrases)` on the lower-cased
content of a message. -/
def msgHasAny (phrases : List String) (m : Message) : Bool :=
  phrases.any (fun p => substrIn p m.content)

/-- The per-message deduction of the policy-adherence loop: 0.1 if the
assistant message contains any hedging phrase, plus 0.1 if it contains
any recommendation phrase, plus 0.2 if it contains "based on our
records" while the scorer has recorded no tool calls.  Non-assistant
messages and empty contents contribute nothing. -/
def msgTextPenalty (s : ScorerState) (m : Message) : ℚ :=
  if m.role = "assistant" ∧ m.content ≠ "" then
    (if msgHasAny hedgePhrases m then 1/10 else 0) +
    (if msgHasAny recommendPhrases m then 1/10 else 0) +
    (if substrIn "based on our records" m.content ∧ s.toolCalls = [] then 1/5 else 0)
  else 0

/-- The fixed list of consequential actions. -/
def consequentialNames : List String :=
  ["exchange_delivered_order_items", "return_delivered_order_items",
   "modify_pending_order_items", "cancel_pending_order"]

/-- Whether `conversation[-5:]` contains a user message with "yes" in its
(lower-cased, non-empty) content. -/
def lastFiveConfirmed (conversation : List Message) : Bool :=
  (conversation.drop (conversation.length - 5)).any
    (fun m => m.role == "user" && !(m.content == "") && substrIn "yes" m.content)

/-- Embeds `CompositeScorer._calculate_policy_adherence`: sequential deduction
loops over the conversation and the executed actions, then a floor at 0. -/
def calcPolicyAdherence (s : ScorerState) (conversation : List Message)
    (actualActions : List Action) : ℚ :=
  if conversation = [] then 0
  else
    let score1 : ℚ := conversation.foldl (fun sc m => sc - msgTextPenalty s m) 1
    let score2 : ℚ := actualActions.foldl
      (fun sc a =>
        if consequentialNames.contains a.name && !(lastFiveConfirmed conversation) then
          sc - 1/5
        else sc)
      score1
    max 0 score2

/-- The polite/helpful phrases of the user-satisfaction pass. -/
def positivePhrases : List String :=
  ["i can help", "let me assist", "i understand", "thank you"]

/-- The apologetic/refusal phrases of the user-satisfaction pass. -/
def negativePhrases : List String :=
  ["i cannot", "unable to", "not possible", "sorry, but"]

/-- Per-message contribution of the user-satisfaction loop. -/
def msgSatisfactionDelta (m : Message) : ℚ :=
  if m.role = "assistant" ∧ m.content ≠ "" then
    (if msgHasAny positivePhrases m then 1/20 else 0) -
    (if msgHasAny negativePhrases m then 1/10 else 0) -
    (if m.content.length < 20 then 1/10
     else if 500 < m.content.length then 1/20 else 0)
  else 0

/-- Embeds `CompositeScorer._calculate_user_satisfaction`. -/
def calcUserSatisfaction (s : ScorerState) (conversation : List Message) : ℚ :=
  if conversation = [] then 0
  else
    let score : ℚ := conversation.foldl (fun sc m => sc + msgSatisfactionDelta m) 1
    let score := if s.transferToHuman ∧ conversation.length < 10 then score - 3/10 else score
    max 0 (min 1 score)

/-- The `CompositeScore` value object. -/
structure CompositeScore where
  taskCompletion : ℚ
  efficiency : ℚ
  policyAdherence : ℚ
  userSatisfaction : ℚ
  overallScore : ℚ
deriving DecidableEq

/-- Embeds `CompositeScorer.calculate_composite_score`.  The evaluator always
attaches an `EfficiencyTracker`, so the efficiency dimension is that
tracker's `overall_efficiency` (the detached-scorer 0.5 default never
arises in the pipeline). -/
def calcCompositeScore (s : ScorerState) (tracker : TrackerState) (binaryReward : ℚ)
    (taskActions actualActions : List Action) (conversation : List Message) : CompositeScore :=
  let tc := calcTaskCompletion binaryReward taskActions actualActions
  let eff := (calculateMetrics tracker).overallEfficiency
  let pa := calcPolicyAdherence s conversation actualActions
  let us := calcUserSatisfaction s conversation
  ⟨tc, eff, pa, us, tc * (4/10) + eff * (3/10) + pa * (2/10) + us * (1/10)⟩

/-! Section: EnhancedEvaluator, from `enhanced_evaluator.py`. -/

/-- The paired scorer/tracker state owned by one `EnhancedEvaluator`. -/
structure EvalState where
  scorer : ScorerState
  tracker : TrackerState
deriving DecidableEq

/-- Embeds `EnhancedEvaluator.start_evaluation`: both components reset. -/
def evalStart : EvalState := ⟨scorerStart, trackerStart initTracker⟩

/-- Embeds `EnhancedEvaluator.record_turn` (evaluator passes `tokens_used = 0`
and the tracker's `response_time` default). -/
def evalRecordTurn (st : EvalState) (m : Message) : EvalState :=
  ⟨scorerRecordTurn st.scorer m, trackerRecordTurn st.tracker m 0 0⟩

/-- Embeds `EnhancedEvaluator.record_tool_call` with default duration/tokens. -/
def evalRecordToolCall (st : EvalState) (name : String) (success : Bool) : EvalState :=
  ⟨scorerRecordToolCall st.scorer name success,
   trackerRecordToolCall st.tracker name success 0 0⟩

/-- One step of `EnhancedEvaluator._process_conversation`: record the
turn, then one tool call per embedded request, then a placeholder
`unknown_tool` call for a `tool`-role message. -/
def processMessage (st : EvalState) (m : Message) : EvalState :=
  let st1 := evalRecordTurn st m
  let st2 := m.toolCalls.foldl (fun acc n => evalRecordToolCall acc n true) st1
  if m.role = "tool" then evalRecordToolCall st2 "unknown_tool" true else st2

/-- Embeds `EnhancedEvaluator._process_conversation` on a freshly started
evaluator (the idempotency flag is initially unset). -/
def processConversation (st : EvalState) (conversation : List Message) : EvalState :=
  conversation.foldl processMessage st

/-- Embeds `EnhancedEvaluationResult` (timestamp elided). -/
structure EnhancedEvaluationResult where
  binaryReward : ℚ
  compositeScore : CompositeScore
  errors : List ErrorAnalysis
  errorSummary : ErrorSummary
  efficiencyMetrics : EfficiencyMetrics
  taskId : ℕ
  trial : ℕ
deriving DecidableEq

/-- Embeds `EnhancedEvaluator.evaluate_task` on a freshly started evaluator:
replay the trajectory, then compute composite score, error findings,
summary and the efficiency snapshot. -/
def evaluateTask (taskId trial : ℕ) (binaryReward : ℚ) (conversation : List Message)
    (taskActions actualActions : List Action)
    (errorInfo : Option (List (String × String))) : EnhancedEvaluationResult :=
  let st := processConversation evalStart conversation
  let errors := analyzeError binaryReward conversation taskActions actualActions errorInfo
  { binaryReward := binaryReward,
    compositeScore :=
      calcCompositeScore st.scorer st.tracker binaryReward taskActions actualActions conversation,
    errors := errors,
    errorSummary := getErrorSummary errors,
    efficiencyMetrics := calculateMetrics st.tracker,
    taskId := taskId,
    trial := trial }

/-! Section: TrialRunner, from `run.py`. -/

/-- What `agent.solve` returns on success. -/
structure SolveRes where
  reward : ℚ
  messages : List Message
  info : List (String × String)
deriving DecidableEq

/-- One (task index, trial) unit of work together with the data the
isolated environment supplies and the agent-under-test's outcome: `ok`
carries the solve result, `error` the pair `(str(e),
traceback.format_exc())` of the caught exception. -/
structure UnitInput where
  idx : ℕ
  trial : ℕ
  taskActions : List Action
  envActions : List Action
  outcome : Except (String × String) SolveRes

/-- One checkpoint record (`EnvRunResult`). -/
structure EnvRunResult where
  taskId : ℕ
  reward : ℚ
  info : List (String × String)
  traj : List Message
  trial : ℕ
  enhanced : EnhancedEvaluationResult
deriving DecidableEq

/-- The body `_run` of the worker: on success, evaluate the solve
result; on an exception, evaluate a zero-reward unit with empty
conversation and actions and `error_info = {"error": str(e),
"traceback": ...}`. -/
def runUnit (u : UnitInput) : EnvRunResult :=
  match u.outcome with
  | Except.ok res =>
    let er := evaluateTask u.idx u.trial res.reward res.messages u.taskActions u.envActions none
    ⟨u.idx, res.reward, res.info, res.messages, u.trial, er⟩
  | Except.error (e, tb) =>
    let info := [("error", e), ("traceback", tb)]
    let er := evaluateTask u.idx u.trial 0 [] u.taskActions [] (some info)
    ⟨u.idx, 0, info, [], u.trial, er⟩

/-- All units of a run: `executor.map(_run, idxs)` keeps the input
order of the worklist, and the final checkpoint rewrite persists
exactly this list. -/
def runAll (units : List UnitInput) : List EnvRunResult :=
  units.map runUnit

/-- Embeds `is_successful` of `display_metrics`: reward within `1e-6` of 1.0. -/
def isSuccessful (r : ℚ) : Bool :=
  decide (1 - 1/1000000 ≤ r) && decide (r ≤ 1 + 1/1000000)

/-- Embeds `num_trials = len(set(r.trial for r in results))`. -/
def numTrials (results : List EnvRunResult) : ℕ :=
  (focc (results.map (fun r => r.trial))).length

/-- The task ids in `c_per_task_id` key (first-occurrence) order. -/
def taskIdList (results : List EnvRunResult) : List ℕ :=
  focc (results.map (fun r => r.taskId))

/-- Embeds `c_per_task_id[t]`: the number of results of task `t` whose reward
meets the success threshold. -/
def cOf (results : List EnvRunResult) (t : ℕ) : ℕ :=
  results.countP (fun r => r.taskId == t && isSuccessful r.reward)

/-- The pass^k statistic computed by `display_metrics`:
`sum(comb(c, k) / comb(num_trials, k) for c in c_per_task_id.values())
 / len(c_per_task_id)`. -/
def passHatK (results : List EnvRunResult) (k : ℕ) : ℚ :=
  (((taskIdList results).map (fun t =>
      ((cOf results t).choose k : ℚ) / ((numTrials results).choose k : ℚ))).sum) /
    ((taskIdList results).length : ℚ)

/-! Section: theorems about the embedded pipeline.

Shared helper lemmas come first, then one theorem (plus, where needed,
a witness or a counterexample) per verified claim. -/

/-- Folding subtraction over a list subtracts the sum of the mapped
values. -/
theorem foldl_sub_map_sum (f : Message → ℚ) :
    ∀ (l : List Message) (init : ℚ),
      l.foldl (fun sc m => sc - f m) init = init - (l.map f).sum := by
  intro l
  induction l with
  | nil => intro init; simp
  | cons a t ih =>
    intro init
    simp only [List.foldl_cons, List.map_cons, List.sum_cons, ih]
    ring

/-- Folding a conditional subtraction of a constant subtracts the
constant once per element satisfying the condition. -/
theorem foldl_if_sub_count (p : Action → Bool) (c : ℚ) :
    ∀ (l : List Action) (init : ℚ),
      l.foldl (fun sc a => if p a = true then sc - c else sc) init =
        init - c * (l.countP p : ℚ) := by
  intro l
  induction l with
  | nil => intro init; simp
  | cons a t ih =>
    intro init
    by_cases hp : p a = true
    · simp only [List.foldl_cons, if_pos hp, ih, List.countP_cons, hp, if_pos]
      push_cast
      ring
    · simp only [List.foldl_cons, if_neg hp, ih, List.countP_cons]
      simp only [Bool.not_eq_true] at hp
      simp [hp]

/-! Subsection: claim C1 — the error list is empty iff the reward is 1.

The forward direction holds (`analyze_error` returns `[]` immediately
for `binary_reward == 1.0`), but the converse fails: a failed trial
with an empty trajectory, no action lists and no `error_info` produces
no findings at all. -/

/-- C1 (counterexample): at `binary_reward = 0` with an empty
trajectory, empty required and actual action lists and no error info,
`analyze_error` returns `[]` although the reward is not 1.0, so the
claimed equivalence is false at this input. -/
theorem analyze_error_iff_counterexample :
    ¬ ((analyzeError 0 [] [] [] none = []) ↔ (0 : ℚ) = 1) := by
  intro h
  have h0 : analyzeError 0 [] [] [] none = [] := by rfl
  have := h.mp h0
  norm_num at this

/-- C1 (amended): for every trial evaluation, if `binary_reward` equals
1.0 then `ErrorAnalyzer.analyze_error` returns the empty finding list;
the converse implication does not hold. -/
theorem analyze_error_empty_of_success
    (reward : ℚ) (conversation : List Message) (taskActions actualActions : List Action)
    (errorInfo : Option (List (String × String))) (h : reward = 1) :
    analyzeError reward conversation taskActions actualActions errorInfo = [] := by
  simp [analyzeError, h]

/-- C1 (witness): the amended theorem applied at reward 1 with a
non-trivial trajectory and action lists. -/
theorem analyze_error_empty_of_success_witness :
    analyzeError 1 [⟨"assistant", "unfortunately i cannot", []⟩]
      [⟨"a"⟩] [⟨"b"⟩] none = [] :=
  analyze_error_empty_of_success 1 [⟨"assistant", "unfortunately i cannot", []⟩]
    [⟨"a"⟩] [⟨"b"⟩] none rfl

/-! Subsection: claim C3 — the worked {A,B,C} vs {A,B,D} example. -/

/-- Required actions {a, b, c} of the worked example. -/
def reqActions : List Action := [⟨"a"⟩, ⟨"b"⟩, ⟨"c"⟩]

/-- Actual actions {a, b, d} of the worked example. -/
def actActions : List Action := [⟨"a"⟩, ⟨"b"⟩, ⟨"d"⟩]

/-- C3: for a failed trial with required {a,b,c} and actual {a,b,d},
task completion is 2/3 − min(0.5, 0.1·1) = 17/30 ≈ 0.567, and the error
analysis consists of exactly one HIGH missing-actions finding naming
{c}, one MEDIUM extra-actions finding naming {d}, and one
goal-completion finding with completion ratio 2/3 and severity MEDIUM. -/
theorem worked_example_scoring_and_findings :
    calcTaskCompletion 0 reqActions actActions = 17/30 ∧
    analyzeError 0 [] reqActions actActions none =
      [{ category := ErrorCategory.MISSING_TOOLS, severity := ErrorSeverity.HIGH,
         confidence := 9/10, actionNames := ["c"] },
       { category := ErrorCategory.WRONG_ARGUMENTS, severity := ErrorSeverity.MEDIUM,
         confidence := 8/10, actionNames := ["d"] },
       { category := ErrorCategory.GOAL_PARTIAL_COMPLETION, severity := ErrorSeverity.MEDIUM,
         confidence := 9/10, completionFrac := some (2/3) }] := by
  have hm : interCard (namesOf reqActions) (namesOf actActions) = 2 := by decide
  have ht : (focc (namesOf reqActions)).length = 3 := by decide
  constructor
  · have hw : (diffList (namesOf actActions) (namesOf reqActions)).length = 1 := by decide
    have hne : ¬(reqActions = [] ∨ actActions = []) := by decide
    rw [calcTaskCompletion, if_neg (by norm_num), if_neg hne, hm, ht, hw]
    norm_num [max_def, min_def]
  · have hgoal : goalErrors reqActions actActions =
        [{ category := ErrorCategory.GOAL_PARTIAL_COMPLETION, severity := ErrorSeverity.MEDIUM,
           confidence := 9/10, completionFrac := some (2/3) }] := by
      rw [goalErrors, if_pos (by decide), hm, ht, if_pos (by norm_num)]
      norm_num
    have hact : actionErrors reqActions actActions =
        [{ category := ErrorCategory.MISSING_TOOLS, severity := ErrorSeverity.HIGH,
           confidence := 9/10, actionNames := ["c"] },
         { category := ErrorCategory.WRONG_ARGUMENTS, severity := ErrorSeverity.MEDIUM,
           confidence := 8/10, actionNames := ["d"] }] := by rfl
    rw [analyzeError, if_neg (by norm_num), hact, hgoal]
    rfl

/-! Subsection: claim C5 — the efficiency sub-score formulas.

The claimed step-function formulas hold only away from the zero cases:
with zero recorded turns `_calculate_conversation_efficiency` returns
0.0 (not the step value 1.0), and with no recorded tool calls
`_calculate_tool_call_efficiency` returns the neutral 0.5. -/

/-- The turn-count step function of the claim (≤20→1.0, ≤40→0.8,
≤60→0.6, else 0.4), written from the specification text. -/
def specTurnStep (n : ℕ) : ℚ :=
  if n ≤ 20 then 1 else if n ≤ 40 then 8/10 else if n ≤ 60 then 6/10 else 4/10

/-- The tool-call-count step function of the claim (≤10→1.0, ≤20→0.8,
≤30→0.6, else 0.4), written from the specification text. -/
def specToolStep (n : ℕ) : ℚ :=
  if n ≤ 10 then 1 else if n ≤ 20 then 8/10 else if n ≤ 30 then 6/10 else 4/10

/-- A tracker immediately after `start_evaluation`: zero turns, no tool
calls, transfer flag unset. -/
def freshTracker : TrackerState := trackerStart initTracker

/-- C5 (counterexample): immediately after `start_evaluation` (turn
count 0, transfer flag false) the computed conversation efficiency is
0, while the claimed formula — step function minus transfer penalty,
floored at 0 — yields 1, so the claim fails at this state. -/
theorem conversation_efficiency_counterexample :
    ¬ ((calculateMetrics freshTracker).conversationEfficiency =
        max 0 (specTurnStep freshTracker.conversationTurns -
          (if freshTracker.transferToHuman then 3/10 else 0))) := by
  have hl : (calculateMetrics freshTracker).conversationEfficiency = 0 := by
    simp [calculateMetrics, freshTracker, trackerStart, calcConversationEfficiency]
  have hr : max 0 (specTurnStep freshTracker.conversationTurns -
      (if freshTracker.transferToHuman then 3/10 else 0)) = 1 := by
    norm_num [specTurnStep, freshTracker, trackerStart, max_def]
  rw [hl, hr]
  norm_num

/-- C5 (amended): for every tracker state after `start_evaluation`,
the conversation efficiency equals the turn-count step function minus
0.3 if the transfer flag is set, floored at 0, **except** that it is 0
when the turn count is 0; and the tool-call efficiency equals the
average of the tool-call-count step function and the raw success rate,
**except** that it is the neutral 0.5 when no tool calls were
recorded. -/
theorem efficiency_scores_formula (s : TrackerState) (h : s.started = true) :
    (calculateMetrics s).conversationEfficiency =
      (if s.conversationTurns = 0 then 0
       else max 0 (specTurnStep s.conversationTurns -
         (if s.transferToHuman then 3/10 else 0))) ∧
    (calculateMetrics s).toolCallEfficiency =
      (if s.toolCalls = [] then 1/2
       else (specToolStep s.toolCalls.length +
         ((s.toolCalls.countP (fun c => c.success) : ℚ) / (s.toolCalls.length : ℚ))) / 2) := by
  constructor
  · simp [calculateMetrics, h, calcConversationEfficiency, specTurnStep]
  · simp [calculateMetrics, h, calcToolCallEfficiency, specToolStep]

/-- A tracker state with 25 turns, one successful tool call and the
transfer flag set. -/
def busyTracker : TrackerState :=
  { started := true, toolCalls := [⟨"get_user_details", true, 1/10, 0⟩],
    conversationTurns := 25, totalTokens := 0, transferToHuman := true,
    responseTimes := [] }

/-- C5 (witness): at 25 turns with transfer set the conversation
efficiency is 0.8 − 0.3 = 0.5, and with one successful tool call the
tool-call efficiency is (1.0 + 1.0)/2 = 1. -/
theorem efficiency_scores_formula_witness :
    (calculateMetrics busyTracker).conversationEfficiency = 1/2 ∧
    (calculateMetrics busyTracker).toolCallEfficiency = 1 := by
  have h := efficiency_scores_formula busyTracker rfl
  rw [h.1, h.2]
  norm_num [busyTracker, specTurnStep, specToolStep, max_def]

/-! Subsection: claim C6 — token estimation in `record_turn`.

The claimed estimate `⌊(chars + 10 + 50·tool_calls) / 4⌋` (minimum 1)
holds only for messages with non-empty content: `_estimate_tokens`
returns 0 outright when the content is empty, so the "at least 1 for
every such message" part fails. -/

/-- C6 (counterexample): recording a turn with an unspecified token
count and empty content adds 0 tokens — not the claimed
`⌊(0 + 10 + 0)/4⌋ = 2`, and not at least 1. -/
theorem record_turn_token_counterexample :
    (trackerRecordTurn freshTracker ⟨"user", "", []⟩ 0 0).totalTokens = 0 ∧
    ¬ (1 ≤ (trackerRecordTurn freshTracker ⟨"user", "", []⟩ 0 0).totalTokens) ∧
    ("".length + 10 + 50 * ([] : List String).length) / 4 = 2 := by
  refine ⟨by rfl, by decide, by rfl⟩

/-- C6 (amended): for every message recorded with an unspecified token
count, the tokens added to the trial total equal 0 if the content is
empty and `max 1 ⌊(character_count + 10 + 50·tool_call_count)/4⌋`
otherwise; in particular the estimate is at least 1 for every message
with non-empty content. -/
theorem record_turn_token_estimate (s : TrackerState) (m : Message) (rt : ℚ) :
    (trackerRecordTurn s m 0 rt).totalTokens =
      s.totalTokens + (if m.content.length = 0 then 0
        else max 1 ((m.content.length + 10 + 50 * m.toolCalls.length) / 4)) ∧
    (m.content.length ≠ 0 →
      1 ≤ (trackerRecordTurn s m 0 rt).totalTokens - s.totalTokens) := by
  constructor
  · simp [trackerRecordTurn, estimateTokens]
  · intro hne
    have : (trackerRecordTurn s m 0 rt).totalTokens = s.totalTokens + estimateTokens m := by
      simp [trackerRecordTurn]
    rw [this, Nat.add_sub_cancel_left]
    rw [estimateTokens, if_neg hne]
    exact Nat.le_max_left 1 _

/-- C6 (witness): recording a two-character message adds
`max 1 ⌊(2 + 10 + 0)/4⌋ = 3` tokens, which is at least 1. -/
theorem record_turn_token_estimate_witness :
    (trackerRecordTurn freshTracker ⟨"user", "hi", []⟩ 0 0).totalTokens =
      freshTracker.totalTokens + (if ("hi".length = 0) then 0
        else max 1 (("hi".length + 10 + 50 * ([] : List String).length) / 4)) ∧
    1 ≤ (trackerRecordTurn freshTracker ⟨"user", "hi", []⟩ 0 0).totalTokens -
      freshTracker.totalTokens :=
  ⟨(record_turn_token_estimate freshTracker ⟨"user", "hi", []⟩ 0).1,
   (record_turn_token_estimate freshTracker ⟨"user", "hi", []⟩ 0).2 (by decide)⟩

/-! Subsection: claims C7 and C8 — the policy-adherence score.

C7's deduction scheme holds for non-empty conversations, but the claim
quantifies over every conversation and `_calculate_policy_adherence`
returns 0.0 outright for an empty conversation, where the claimed
"starts at 1.0" value would be 1.  C8's "per occurrence" reading is
wrong: each deduction category fires at most once per assistant
message (`any(phrase in content ...)`), not once per phrase
occurrence. -/

/-- Boolean test: an assistant message with non-empty content that
contains at least one hedging phrase. -/
def isHedgeMsg (m : Message) : Bool :=
  (m.role == "assistant") && !(m.content == "") && msgHasAny hedgePhrases m

/-- Boolean test: an assistant message with non-empty content that
contains at least one subjective-recommendation phrase. -/
def isRecMsg (m : Message) : Bool :=
  (m.role == "assistant") && !(m.content == "") && msgHasAny recommendPhrases m

/-- Boolean test: an assistant message with non-empty content that
contains "based on our records" while the scorer has recorded no tool
calls. -/
def isRecordsNoToolMsg (s : ScorerState) (m : Message) : Bool :=
  (m.role == "assistant") && !(m.content == "") &&
    substrIn "based on our records" m.content && s.toolCalls.isEmpty

/-- Decomposition of the per-message policy deduction into the three
indicator categories. -/
theorem msgTextPenalty_decompose (s : ScorerState) (m : Message) :
    msgTextPenalty s m =
      (1/10) * (if isHedgeMsg m then 1 else 0) +
      (1/10) * (if isRecMsg m then 1 else 0) +
      (1/5) * (if isRecordsNoToolMsg s m then 1 else 0) := by
  by_cases hrole : m.role = "assistant"
  · by_cases hcont : m.content = ""
    · simp [msgTextPenalty, isHedgeMsg, isRecMsg, isRecordsNoToolMsg, hrole, hcont]
    · by_cases ht : s.toolCalls = [] <;>
      cases hh : msgHasAny hedgePhrases m <;>
      cases hr : msgHasAny recommendPhrases m <;>
      cases hb : substrIn "based on our records" m.content <;>
      simp [msgTextPenalty, isHedgeMsg, isRecMsg, isRecordsNoToolMsg, hrole, hcont,
        hh, hr, hb, ht, List.isEmpty_iff]
  · simp [msgTextPenalty, isHedgeMsg, isRecMsg, isRecordsNoToolMsg, hrole]

/-- The summed per-message policy deductions count messages per
category. -/
theorem textPenalty_sum (s : ScorerState) (conversation : List Message) :
    ((conversation.map (msgTextPenalty s)).sum) =
      (1/10) * (conversation.countP isHedgeMsg : ℚ) +
      (1/10) * (conversation.countP isRecMsg : ℚ) +
      (1/5) * (conversation.countP (isRecordsNoToolMsg s) : ℚ) := by
  induction conversation with
  | nil => simp
  | cons a t ih =>
    simp only [List.map_cons, List.sum_cons, ih, msgTextPenalty_decompose s a,
      List.countP_cons]
    cases h1 : isHedgeMsg a <;> cases h2 : isRecMsg a <;>
      cases h3 : isRecordsNoToolMsg s a <;>
      simp [h1, h2, h3, Nat.cast_add, Nat.cast_one] <;> ring

/-- C7 (counterexample): for the empty conversation with no actions at
all, no deduction applies, so the claimed score — starting at 1.0 with
0.2 per unconfirmed consequential action deducted and a floor at 0 —
is 1; the code returns 0 instead. -/
theorem policy_adherence_empty_counterexample :
    calcPolicyAdherence scorerStart [] [] = 0 ∧
    ¬ (calcPolicyAdherence scorerStart [] [] = 1) := by
  refine ⟨rfl, ?_⟩
  have h0 : calcPolicyAdherence scorerStart [] [] = 0 := rfl
  rw [h0]
  norm_num

/-- C7 (amended): for every scorer state, conversation and action
list, the policy-adherence score of a non-empty conversation starts at
1.0, loses the per-message text deductions, loses 0.2 per consequential
action not confirmed by a user message containing "yes" within the
last 5 messages of the conversation, and is floored at 0 with no upper
clamp; an empty conversation scores 0. -/
theorem policy_adherence_formula (s : ScorerState) (conversation : List Message)
    (actualActions : List Action) :
    calcPolicyAdherence s conversation actualActions =
      if conversation = [] then 0
      else max 0 ((1 - ((conversation.map (msgTextPenalty s)).sum)) -
        (1/5) * ((actualActions.countP (fun a =>
          consequentialNames.contains a.name && !(lastFiveConfirmed conversation))) : ℚ)) := by
  by_cases hc : conversation = []
  · simp [calcPolicyAdherence, hc]
  · simp only [calcPolicyAdherence, hc, if_false]
    rw [foldl_if_sub_count (fun a =>
        consequentialNames.contains a.name && !(lastFiveConfirmed conversation)) (1/5),
      foldl_sub_map_sum (msgTextPenalty s)]

/-- C8 (counterexample): one assistant message containing three hedging
occurrences ("i think", "probably" — and no other deduction trigger)
loses 0.1 only once, scoring 0.9; the claimed per-occurrence deduction
would subtract 0.1 twice, scoring 0.8. -/
theorem policy_adherence_per_occurrence_counterexample :
    calcPolicyAdherence scorerStart [⟨"assistant", "i think probably", []⟩] [] = 9/10 ∧
    (hedgePhrases.map (fun p => countOcc p "i think probably")).sum = 2 ∧
    max 0 (1 - (1/10) *
      (((hedgePhrases.map (fun p => countOcc p "i think probably")).sum : ℚ))) = 8/10 ∧
    ¬ ((9 : ℚ)/10 = 8/10) := by
  have hsum : (hedgePhrases.map (fun p => countOcc p "i think probably")).sum = 2 := by
    decide
  refine ⟨?_, hsum, by rw [hsum]; norm_num [max_def], by norm_num⟩
  have hh : msgHasAny hedgePhrases ⟨"assistant", "i think probably", []⟩ = true := by decide
  have hr : msgHasAny recommendPhrases ⟨"assistant", "i think probably", []⟩ = false := by
    decide
  have hb : substrIn "based on our records" "i think probably" = false := by decide
  have hp : msgTextPenalty scorerStart ⟨"assistant", "i think probably", []⟩ = 1/10 := by
    rw [msgTextPenalty, if_pos (by exact ⟨rfl, by decide⟩), hh, hr]
    simp [hb]
  rw [calcPolicyAdherence, if_neg (by simp)]
  simp only [List.foldl_cons, List.foldl_nil, hp]
  norm_num [max_def]

/-- C8 (amended): the text deductions of the policy-adherence score
are per message, not per occurrence: for every scorer state and
conversation (with no executed actions, isolating the text pass), the
score is 1.0 minus 0.1 per assistant message containing at least one
hedging phrase, minus 0.1 per assistant message containing at least
one subjective-recommendation phrase, minus 0.2 per assistant message
containing "based on our records" with no recorded tool calls, floored
at 0 (and 0 for an empty conversation). -/
theorem policy_adherence_per_message (s : ScorerState) (conversation : List Message) :
    calcPolicyAdherence s conversation [] =
      if conversation = [] then 0
      else max 0 (1 - (1/10) * (conversation.countP isHedgeMsg : ℚ)
        - (1/10) * (conversation.countP isRecMsg : ℚ)
        - (1/5) * (conversation.countP (isRecordsNoToolMsg s) : ℚ)) := by
  by_cases hc : conversation = []
  · simp [calcPolicyAdherence, hc]
  · simp only [calcPolicyAdherence, hc, if_false, List.foldl_nil]
    rw [foldl_sub_map_sum (msgTextPenalty s), textPenalty_sum]
    congr 1
    ring

/-! Subsection: claims C2 and C9 — the pass^k statistic. -/

/-- Specification-side pass^k formula, written from the claim's words:
the mean over tasks of `C(c,k)/C(num_trials,k)` with the term defined
as 0 when `k > c`.  To be compared with the embedded `passHatK`. -/
def specPassK (results : List EnvRunResult) (k : ℕ) : ℚ :=
  (((taskIdList results).map (fun t =>
      if cOf results t < k then 0
      else ((cOf results t).choose k : ℚ) / ((numTrials results).choose k : ℚ))).sum) /
    ((taskIdList results).length : ℚ)

/-- A minimal checkpoint record for task `t`, trial `tr`, reward `rw`,
with an empty trajectory and action lists. -/
def mkRes (t tr : ℕ) (rw : ℚ) : EnvRunResult :=
  ⟨t, rw, [], [], tr, evaluateTask t tr rw [] [] [] none⟩

/-- One task attempted three times, succeeding in trials 0 and 1 and
failing in trial 2 (`c = 2` of `num_trials = 3`). -/
def exThree : List EnvRunResult := [mkRes 0 0 1, mkRes 0 1 1, mkRes 0 2 0]

/-- C2: the computed pass^k equals, for every result set and k, the
mean over tasks of `C(c,k)/C(num_trials,k)` with the term equal to 0
when `k > c`; in particular, for a single task with `c = 2` of 3
trials, pass^1 = 2/3, pass^2 = 1/3 and pass^3 = 0. -/
theorem pass_hat_k_formula :
    (∀ (results : List EnvRunResult) (k : ℕ), passHatK results k = specPassK results k) ∧
    passHatK exThree 1 = 2/3 ∧ passHatK exThree 2 = 1/3 ∧ passHatK exThree 3 = 0 := by
  have h1 : isSuccessful 1 = true := by norm_num [isSuccessful]
  have h0 : isSuccessful 0 = false := by norm_num [isSuccessful]
  have hc : cOf exThree 0 = 2 := by
    simp [cOf, exThree, mkRes, List.countP_cons, List.countP_nil, h1, h0]
  have hts : taskIdList exThree = [0] := by simp [taskIdList, exThree, mkRes, focc]
  have hn : numTrials exThree = 3 := by simp [numTrials, exThree, mkRes, focc]
  refine ⟨?_, ?_, ?_, ?_⟩
  · intro results k
    rw [passHatK, specPassK]
    congr 1
    refine congrArg List.sum ?_
    apply List.map_congr_left
    intro t _
    by_cases hlt : cOf results t < k
    · rw [if_pos hlt, Nat.choose_eq_zero_of_lt hlt]
      simp
    · rw [if_neg hlt]
  · rw [passHatK, hts, hn]
    simp [hc]
  · rw [passHatK, hts, hn]
    simp [hc]
  · rw [passHatK, hts, hn]
    simp [hc]

/-- Membership in the first-occurrence deduplication agrees with
membership in the original list. -/
theorem mem_focc {α : Type} [DecidableEq α] (a : α) :
    ∀ l : List α, a ∈ focc l ↔ a ∈ l := by
  intro l
  induction l with
  | nil => simp [focc]
  | cons x t ih =>
    simp only [focc, List.mem_cons, List.mem_filter, ih, decide_eq_true_eq]
    by_cases hx : a = x
    · simp [hx]
    · simp [hx]

/-- The first-occurrence deduplication has no duplicates. -/
theorem focc_nodup {α : Type} [DecidableEq α] : ∀ l : List α, (focc l).Nodup := by
  intro l
  induction l with
  | nil => simp [focc]
  | cons x t ih =>
    refine List.Nodup.cons ?_ (ih.filter _)
    intro hx
    have := List.of_mem_filter hx
    simp at this

/-- Permuted lists have permuted first-occurrence deduplications. -/
theorem focc_perm_of_perm {α : Type} [DecidableEq α] {l₁ l₂ : List α}
    (h : l₁.Perm l₂) : (focc l₁).Perm (focc l₂) := by
  rw [List.perm_ext_iff_of_nodup (focc_nodup _) (focc_nodup _)]
  intro a
  rw [mem_focc, mem_focc]
  exact h.mem_iff

/-- C9: the pass^k aggregation is order-independent — for every
permutation of the result list, the per-task success counts, the trial
count and every pass^k value are identical, so the aggregates do not
depend on unit completion order (concurrency 1 versus concurrency N). -/
theorem pass_hat_k_perm_invariant (l₁ l₂ : List EnvRunResult) (h : l₁.Perm l₂) :
    (∀ t, cOf l₁ t = cOf l₂ t) ∧ numTrials l₁ = numTrials l₂ ∧
    (∀ k, passHatK l₁ k = passHatK l₂ k) := by
  have hc : ∀ t, cOf l₁ t = cOf l₂ t := fun t => h.countP_eq _
  have hids : (taskIdList l₁).Perm (taskIdList l₂) :=
    focc_perm_of_perm (h.map (fun r => r.taskId))
  have hn : numTrials l₁ = numTrials l₂ := by
    rw [numTrials, numTrials]
    exact (focc_perm_of_perm (h.map (fun r => r.trial))).length_eq
  refine ⟨hc, hn, fun k => ?_⟩
  rw [passHatK, passHatK]
  simp only [hc, hn]
  rw [(hids.map _).sum_eq, hids.length_eq]

/-- C9 (witness): the theorem applied to a two-element result list and
its swap. -/
theorem pass_hat_k_perm_invariant_witness :
    (∀ t, cOf [mkRes 0 0 1, mkRes 1 0 0] t = cOf [mkRes 1 0 0, mkRes 0 0 1] t) ∧
    numTrials [mkRes 0 0 1, mkRes 1 0 0] = numTrials [mkRes 1 0 0, mkRes 0 0 1] ∧
    (∀ k, passHatK [mkRes 0 0 1, mkRes 1 0 0] k = passHatK [mkRes 1 0 0, mkRes 0 0 1] k) :=
  pass_hat_k_perm_invariant [mkRes 0 0 1, mkRes 1 0 0] [mkRes 1 0 0, mkRes 0 0 1]
    (List.Perm.swap _ _ _)

/-! Subsection: claim C4 — failed units and the system-error finding. -/

/-- Findings of the conversation pattern scan never carry the
`RUNTIME_ERROR` category. -/
theorem conversationErrors_not_runtime (conv : List Message) (f : ErrorAnalysis)
    (hf : f ∈ conversationErrors conv) : f.category ≠ ErrorCategory.RUNTIME_ERROR := by
  simp only [conversationErrors, List.mem_flatten, List.mem_map] at hf
  obtain ⟨L, ⟨m, hm, hL⟩, hfL⟩ := hf
  subst hL
  by_cases hr : m.role = "assistant"
  · rw [if_pos hr] at hfL
    simp only [patternFindings, List.mem_flatten, List.mem_map] at hfL
    obtain ⟨L2, ⟨g, hg, hL2⟩, hf2⟩ := hfL
    subst hL2
    obtain ⟨p, hp, hfe⟩ := List.mem_map.mp hf2
    rw [← hfe]
    fin_cases hg <;> simp
  · rw [if_neg hr] at hfL
    simp at hfL

/-- Findings of the action-set diff never carry the `RUNTIME_ERROR`
category. -/
theorem actionErrors_not_runtime (ta aa : List Action) (f : ErrorAnalysis)
    (hf : f ∈ actionErrors ta aa) : f.category ≠ ErrorCategory.RUNTIME_ERROR := by
  rw [actionErrors] at hf
  split at hf
  · simp at hf
  · rcases List.mem_append.mp hf with h | h <;> split at h <;> simp at h <;> rw [h] <;> simp

/-- Findings of the tool-failure scan never carry the `RUNTIME_ERROR`
category. -/
theorem toolErrors_not_runtime (conv : List Message) (f : ErrorAnalysis)
    (hf : f ∈ toolErrors conv) : f.category ≠ ErrorCategory.RUNTIME_ERROR := by
  simp only [toolErrors, List.mem_flatten, List.mem_map] at hf
  obtain ⟨L, ⟨m, hm, hL⟩, hfL⟩ := hf
  subst hL
  split at hfL <;> simp at hfL
  rw [hfL]
  simp

/-- Findings of the goal-completion pass never carry the
`RUNTIME_ERROR` category. -/
theorem goalErrors_not_runtime (ta aa : List Action) (f : ErrorAnalysis)
    (hf : f ∈ goalErrors ta aa) : f.category ≠ ErrorCategory.RUNTIME_ERROR := by
  simp only [goalErrors] at hf
  split at hf
  · split at hf
    · simp only [List.mem_singleton] at hf
      rw [hf]
      simp
    · simp at hf
  · simp at hf

/-- On the exception path of `_run` — reward 0, empty conversation and
actual actions, `error_info = {"error": ..., "traceback": ...}` — the
analysis yields exactly the one CRITICAL runtime-error finding. -/
theorem analyzeError_error_path (ta : List Action) (e tb : String) :
    analyzeError 0 [] ta [] (some [("error", e), ("traceback", tb)]) =
      [{ category := ErrorCategory.RUNTIME_ERROR, severity := ErrorSeverity.CRITICAL,
         confidence := 1 }] := by
  rw [analyzeError, if_neg (by norm_num)]
  have h2 : actionErrors ta [] = [] := by rw [actionErrors, if_pos (Or.inr rfl)]
  have h4 : goalErrors ta [] = [] := by
    rw [goalErrors, if_neg (fun h => h.2 rfl)]
  rw [h2, h4]
  rfl

/-- Projections of a unit's checkpoint record: the record keeps the
unit's task index and trial. -/
theorem runUnit_key (v : UnitInput) :
    (runUnit v).taskId = v.idx ∧ (runUnit v).trial = v.trial := by
  rcases v with ⟨i, tr, ta, ea, oc⟩
  rcases oc with p | res
  · obtain ⟨e, tb⟩ := p
    exact ⟨rfl, rfl⟩
  · exact ⟨rfl, rfl⟩

/-- In a unit list with pairwise-distinct (task, trial) keys, each
unit's key matches exactly one element. -/
theorem countP_key_eq_one :
    ∀ (l : List UnitInput), (l.map (fun v => (v.idx, v.trial))).Nodup →
      ∀ u ∈ l, l.countP (fun v => v.idx == u.idx && v.trial == u.trial) = 1 := by
  intro l
  induction l with
  | nil => intro _ u hu; simp at hu
  | cons b t ih =>
    intro hnd u hu
    rw [List.map_cons, List.nodup_cons] at hnd
    rw [List.countP_cons]
    rcases List.mem_cons.mp hu with rfl | hut
    · have hz : t.countP (fun v => v.idx == u.idx && v.trial == u.trial) = 0 := by
        rw [List.countP_eq_zero]
        intro v hv hpred
        simp only [Bool.and_eq_true, beq_iff_eq] at hpred
        refine hnd.1 ?_
        have : (u.idx, u.trial) = (v.idx, v.trial) := by rw [hpred.1, hpred.2]
        rw [this]
        exact List.mem_map_of_mem _ hv
      simp [hz]
    · have hb : (b.idx == u.idx && b.trial == u.trial) = false := by
        by_contra hbt
        rw [Bool.not_eq_false, Bool.and_eq_true, beq_iff_eq, beq_iff_eq] at hbt
        refine hnd.1 ?_
        have : (b.idx, b.trial) = (u.idx, u.trial) := by rw [hbt.1, hbt.2]
        rw [this]
        exact List.mem_map_of_mem _ hut
      rw [hb]
      simp [ih hnd.2 u hut]

/-- C4: in any run whose (task, trial) unit keys are distinct, a unit
whose agent-under-test raises still produces exactly one checkpoint
record for its (task_id, trial), with reward 0.0, non-empty error
info, and exactly one error finding — the CRITICAL, confidence-1.0
system error; the record list is the unit-wise map of `runUnit`, so
the other units' records are unaffected; and a runtime-error finding
is emitted only when `error_info` is a non-empty mapping carrying the
"error" key, always CRITICAL with confidence 1.0. -/
theorem failed_unit_checkpoint_and_system_error
    (units : List UnitInput)
    (hkeys : (units.map (fun v => (v.idx, v.trial))).Nodup) :
    (∀ u ∈ units, ∀ e tb, u.outcome = Except.error (e, tb) →
      (runAll units).countP
        (fun r => r.taskId == u.idx && r.trial == u.trial) = 1 ∧
      (runUnit u).reward = 0 ∧ (runUnit u).info ≠ [] ∧
      runUnit u ∈ runAll units ∧
      (runUnit u).enhanced.errors =
        [{ category := ErrorCategory.RUNTIME_ERROR, severity := ErrorSeverity.CRITICAL,
           confidence := 1 }]) ∧
    (runAll units = units.map runUnit) ∧
    (∀ reward conv ta aa info f, f ∈ analyzeError reward conv ta aa info →
      f.category = ErrorCategory.RUNTIME_ERROR →
      ∃ l, info = some l ∧ l ≠ [] ∧ hasKey "error" l = true ∧
        f.severity = ErrorSeverity.CRITICAL ∧ f.confidence = 1) := by
  refine ⟨?_, rfl, ?_⟩
  · intro u hu e tb houtcome
    refine ⟨?_, ?_, ?_, List.mem_map_of_mem runUnit hu, ?_⟩
    · rw [runAll, List.countP_map]
      have hcong : units.countP
          ((fun r => r.taskId == u.idx && r.trial == u.trial) ∘ runUnit) =
          units.countP (fun v => v.idx == u.idx && v.trial == u.trial) := by
        apply List.countP_congr
        intro v hv
        simp only [Function.comp]
        rw [(runUnit_key v).1, (runUnit_key v).2]
      rw [hcong]
      exact countP_key_eq_one units hkeys u hu
    · simp [runUnit, houtcome]
    · simp [runUnit, houtcome]
    · simp only [runUnit, houtcome, evaluateTask]
      exact analyzeError_error_path u.taskActions e tb
  · intro reward conv ta aa info f hf hcat
    cases info with
    | none =>
      rw [analyzeError] at hf
      split at hf
      · simp at hf
      · rcases List.mem_append.mp hf with h | h
        · rcases List.mem_append.mp h with h' | h'
          · rcases List.mem_append.mp h' with h'' | h''
            · rcases List.mem_append.mp h'' with h3 | h3
              · exact absurd hcat (conversationErrors_not_runtime conv f h3)
              · exact absurd hcat (actionErrors_not_runtime ta aa f h3)
            · exact absurd hcat (toolErrors_not_runtime conv f h'')
          · exact absurd hcat (goalErrors_not_runtime ta aa f h')
        · simp at h
    | some l =>
      rw [analyzeError] at hf
      split at hf
      · simp at hf
      · rcases List.mem_append.mp hf with h | h
        · rcases List.mem_append.mp h with h' | h'
          · rcases List.mem_append.mp h' with h'' | h''
            · rcases List.mem_append.mp h'' with h3 | h3
              · exact absurd hcat (conversationErrors_not_runtime conv f h3)
              · exact absurd hcat (actionErrors_not_runtime ta aa f h3)
            · exact absurd hcat (toolErrors_not_runtime conv f h'')
          · exact absurd hcat (goalErrors_not_runtime ta aa f h')
        · split at h
          · rename_i hcond
            refine ⟨l, rfl, hcond.1, hcond.2, ?_⟩
            simp only [systemErrors, List.mem_singleton] at h
            rw [h]
            exact ⟨rfl, rfl⟩
          · simp at h

/-- A unit whose agent raises, used by the C4 witness. -/
def failingUnit : UnitInput := ⟨0, 0, [⟨"a"⟩], [], Except.error ("boom", "tb")⟩

/-- A unit whose agent succeeds, used by the C4 witness. -/
def okUnit : UnitInput := ⟨1, 0, [], [], Except.ok ⟨1, [], []⟩⟩

/-- C4 (witness): the theorem applied to a two-unit run whose first
unit raises. -/
theorem failed_unit_checkpoint_witness :
    (runAll [failingUnit, okUnit]).countP
      (fun r => r.taskId == failingUnit.idx && r.trial == failingUnit.trial) = 1 ∧
    (runUnit failingUnit).reward = 0 ∧ (runUnit failingUnit).info ≠ [] ∧
    (runUnit failingUnit).enhanced.errors =
      [{ category := ErrorCategory.RUNTIME_ERROR, severity := ErrorSeverity.CRITICAL,
         confidence := 1 }] := by
  have h := (failed_unit_checkpoint_and_system_error [failingUnit, okUnit]
    (by decide)).1 failingUnit (List.mem_cons_self _ _) "boom" "tb" rfl
  exact ⟨h.1, h.2.1, h.2.2.1, h.2.2.2.2⟩

/-! Subsection: claim C10 — `get_error_summary`'s modal category and
severity.

Python's `max(d.items(), key=...)` returns the first item attaining
the maximal value, and the dict `d` lists its keys in first-insertion
order, so the modal category/severity is, among the tied ones, the one
whose first finding occurs earliest in the error list. -/

/-- Characterization of `bump` membership on a dict with distinct
keys: an entry of `bump acc x` is either an untouched entry with a key
other than `x`, or the updated/new `x` entry. -/
theorem mem_bump {α : Type} [DecidableEq α] :
    ∀ (acc : List (α × ℕ)) (x : α), (acc.map Prod.fst).Nodup →
      ∀ p ∈ bump acc x,
        (p ∈ acc ∧ p.1 ≠ x) ∨
        (p.1 = x ∧ ((p.2 = 1 ∧ x ∉ acc.map Prod.fst) ∨ ∃ v, (x, v) ∈ acc ∧ p.2 = v + 1)) := by
  intro acc
  induction acc with
  | nil =>
    intro x _ p hp
    simp only [bump, List.mem_singleton] at hp
    right
    rw [hp]
    exact ⟨rfl, Or.inl ⟨rfl, by simp⟩⟩
  | cons q t ih =>
    intro x hnd p hp
    obtain ⟨k, w⟩ := q
    rw [List.map_cons, List.nodup_cons] at hnd
    by_cases hk : k = x
    · subst hk
      rw [bump, if_pos rfl] at hp
      rcases List.mem_cons.mp hp with hpe | hpt
      · right
        rw [hpe]
        exact ⟨rfl, Or.inr ⟨w, List.mem_cons_self _ _, rfl⟩⟩
      · left
        refine ⟨List.mem_cons_of_mem _ hpt, ?_⟩
        intro hpx
        have hmm := List.mem_map_of_mem Prod.fst hpt
        rw [hpx] at hmm
        exact hnd.1 hmm
    · rw [bump, if_neg hk] at hp
      rcases List.mem_cons.mp hp with hpe | hpt
      · left
        rw [hpe]
        exact ⟨List.mem_cons_self _ _, hk⟩
      · rcases ih x hnd.2 p hpt with ⟨hpm, hpne⟩ | ⟨hpx, hrest⟩
        · exact Or.inl ⟨List.mem_cons_of_mem _ hpm, hpne⟩
        · refine Or.inr ⟨hpx, ?_⟩
          rcases hrest with ⟨h1, hnotin⟩ | ⟨v, hv, hp2⟩
          · refine Or.inl ⟨h1, ?_⟩
            rw [List.map_cons, List.mem_cons]
            rintro (hxk | hxt)
            · exact hk hxk.symm
            · exact hnotin hxt
          · exact Or.inr ⟨v, List.mem_cons_of_mem _ hv, hp2⟩

/-- Keys of `bump`: an existing key keeps the key list unchanged, a
new key is appended. -/
theorem bump_keys {α : Type} [DecidableEq α] :
    ∀ (acc : List (α × ℕ)) (x : α),
      (bump acc x).map Prod.fst =
        if x ∈ acc.map Prod.fst then acc.map Prod.fst else acc.map Prod.fst ++ [x] := by
  intro acc
  induction acc with
  | nil => intro x; simp [bump]
  | cons q t ih =>
    intro x
    obtain ⟨k, w⟩ := q
    by_cases hk : k = x
    · subst hk
      rw [bump, if_pos rfl]
      simp
    · rw [bump, if_neg hk, List.map_cons, List.map_cons, ih x]
      by_cases hx : x ∈ t.map Prod.fst
      · rw [if_pos hx, if_pos (by simp [hx])]
      · rw [if_neg hx, if_neg (by simp [hx, Ne.symm hk]), List.cons_append]

/-- The counting dict built by `get_error_summary`: its keys are
distinct and are exactly the elements of `l`; each entry's value is
the element's multiplicity in `l`; and the keys appear in
first-occurrence order (two keys compare in the key list exactly as
their first occurrences compare in `l`). -/
theorem buildCounts_spec {α : Type} [DecidableEq α] (l : List α) :
    ((buildCounts l).map Prod.fst).Nodup ∧
    (∀ a, a ∈ (buildCounts l).map Prod.fst ↔ a ∈ l) ∧
    (∀ p ∈ buildCounts l, p.2 = l.count p.1) ∧
    (∀ a b, a ∈ (buildCounts l).map Prod.fst → b ∈ (buildCounts l).map Prod.fst →
      (((buildCounts l).map Prod.fst).indexOf a ≤ ((buildCounts l).map Prod.fst).indexOf b ↔
        l.indexOf a ≤ l.indexOf b)) := by
  induction l using List.reverseRecOn with
  | nil => simp [buildCounts]
  | append_singleton l x ih =>
    obtain ⟨hnd, hmem, hval, hord⟩ := ih
    have hstep : buildCounts (l ++ [x]) = bump (buildCounts l) x := by
      rw [buildCounts, buildCounts, List.foldl_append]
      rfl
    by_cases hx : x ∈ (buildCounts l).map Prod.fst
    · -- existing key: keys unchanged
      have hkeys : (buildCounts (l ++ [x])).map Prod.fst = (buildCounts l).map Prod.fst := by
        rw [hstep, bump_keys, if_pos hx]
      have hxl : x ∈ l := (hmem x).mp hx
      refine ⟨hkeys ▸ hnd, ?_, ?_, ?_⟩
      · intro a
        rw [hkeys, hmem]
        simp only [List.mem_append, List.mem_singleton]
        constructor
        · exact Or.inl
        · rintro (h | rfl)
          · exact h
          · exact hxl
      · intro p hp
        rw [hstep] at hp
        rcases mem_bump (buildCounts l) x hnd p hp with ⟨hpm, hpne⟩ | ⟨hpx, hrest⟩
        · rw [hval p hpm, List.count_append, List.count_singleton']
          simp [Ne.symm hpne]
        · rcases hrest with ⟨_, hnotin⟩ | ⟨v, hv, hp2⟩
          · exact absurd hx hnotin
          · have : v = l.count x := hval (x, v) hv
            rw [hp2, this, hpx, List.count_append, List.count_singleton']
            simp
      · intro a b ha hb
        rw [hkeys] at ha hb
        rw [hkeys, hord a b ha hb,
          List.indexOf_append_of_mem ((hmem a).mp ha),
          List.indexOf_append_of_mem ((hmem b).mp hb)]
    · -- new key: appended at the end
      have hkeys : (buildCounts (l ++ [x])).map Prod.fst =
          (buildCounts l).map Prod.fst ++ [x] := by
        rw [hstep, bump_keys, if_neg hx]
      have hxl : x ∉ l := fun h => hx ((hmem x).mpr h)
      refine ⟨?_, ?_, ?_, ?_⟩
      · rw [hkeys, List.nodup_append]
        exact ⟨hnd, List.nodup_singleton x, by simpa using fun h => hx h⟩
      · intro a
        rw [hkeys]
        simp only [List.mem_append, List.mem_singleton, hmem]
      · intro p hp
        rw [hstep] at hp
        rcases mem_bump (buildCounts l) x hnd p hp with ⟨hpm, hpne⟩ | ⟨hpx, hrest⟩
        · rw [hval p hpm, List.count_append, List.count_singleton']
          simp [Ne.symm hpne]
        · rcases hrest with ⟨hp1, _⟩ | ⟨v, hv, _⟩
          · rw [hp1, hpx, List.count_append, List.count_singleton']
            have : l.count x = 0 := by
              rw [List.count_eq_zero]
              exact hxl
            simp [this]
          · exact absurd (List.mem_map_of_mem Prod.fst hv) hx
      · intro a b ha hb
        rw [hkeys] at ha hb
        rw [hkeys]
        rcases List.mem_append.mp ha with haold | hax <;>
          rcases List.mem_append.mp hb with hbold | hbx
        · rw [List.indexOf_append_of_mem haold, List.indexOf_append_of_mem hbold,
            List.indexOf_append_of_mem ((hmem a).mp haold),
            List.indexOf_append_of_mem ((hmem b).mp hbold)]
          exact hord a b haold hbold
        · rw [List.mem_singleton] at hbx
          subst hbx
          have h1 : ((buildCounts l).map Prod.fst).indexOf a <
              ((buildCounts l).map Prod.fst).length :=
            List.indexOf_lt_length.mpr haold
          have h2 : l.indexOf a < l.length := List.indexOf_lt_length.mpr ((hmem a).mp haold)
          rw [List.indexOf_append_of_mem haold, List.indexOf_append_of_not_mem hx,
            List.indexOf_append_of_mem ((hmem a).mp haold),
            List.indexOf_append_of_not_mem hxl]
          constructor
          · intro _
            exact Nat.le_of_lt (Nat.lt_of_lt_of_le h2 (Nat.le_add_right _ _))
          · intro _
            exact Nat.le_of_lt (Nat.lt_of_lt_of_le h1 (Nat.le_add_right _ _))
        · rw [List.mem_singleton] at hax
          subst hax
          have h1 : ((buildCounts l).map Prod.fst).indexOf b <
              ((buildCounts l).map Prod.fst).length :=
            List.indexOf_lt_length.mpr hbold
          have h2 : l.indexOf b < l.length := List.indexOf_lt_length.mpr ((hmem b).mp hbold)
          rw [List.indexOf_append_of_mem hbold, List.indexOf_append_of_not_mem hx,
            List.indexOf_append_of_mem ((hmem b).mp hbold),
            List.indexOf_append_of_not_mem hxl]
          constructor
          · intro hle
            exact absurd (Nat.lt_of_le_of_lt hle h1) (by simp)
          · intro hle
            exact absurd (Nat.lt_of_le_of_lt hle h2) (by simp)
        · rw [List.mem_singleton] at hax hbx
          subst hax
          subst hbx
          simp

/-- Python's `max` of a non-empty item list yields a value. -/
theorem pyMax_isSome {α : Type} :
    ∀ (l : List (α × ℕ)), l ≠ [] → ∃ p, pyMaxBySnd l = some p := by
  intro l
  induction l with
  | nil => intro h; exact absurd rfl h
  | cons a t ih =>
    intro _
    cases t with
    | nil => exact ⟨a, rfl⟩
    | cons b t' =>
      obtain ⟨r, hr⟩ := ih (List.cons_ne_nil b t')
      refine ⟨if a.2 < r.2 then r else a, ?_⟩
      rw [pyMaxBySnd, hr]

/-- Python's `max(items, key=lambda x: x[1])` returns an item of the
list whose value is maximal and which precedes every other maximal
item: the list splits as `l₁ ++ p :: l₂` with every value in `l₁`
strictly below the maximum. -/
theorem pyMax_spec {α : Type} :
    ∀ (l : List (α × ℕ)) (p : α × ℕ), pyMaxBySnd l = some p →
      p ∈ l ∧ (∀ q ∈ l, q.2 ≤ p.2) ∧
      ∃ l₁ l₂, l = l₁ ++ p :: l₂ ∧ ∀ q ∈ l₁, q.2 < p.2 := by
  intro l
  induction l with
  | nil => intro p hp; simp [pyMaxBySnd] at hp
  | cons a t ih =>
    intro p hp
    cases t with
    | nil =>
      rw [pyMaxBySnd, Option.some.injEq] at hp
      subst hp
      refine ⟨List.mem_singleton_self a, ?_, [], [], rfl, by simp⟩
      intro q hq
      rw [List.mem_singleton] at hq
      rw [hq]
    | cons b t' =>
      obtain ⟨r, hr⟩ := pyMax_isSome (b :: t') (List.cons_ne_nil b t')
      rw [pyMaxBySnd, hr, Option.some.injEq] at hp
      obtain ⟨hrmem, hrmax, l₁, l₂, hdec, hl₁⟩ := ih r hr
      by_cases hlt : a.2 < r.2
      · rw [if_pos hlt] at hp
        subst hp
        refine ⟨List.mem_cons_of_mem a hrmem, ?_, a :: l₁, l₂, by rw [hdec]; rfl, ?_⟩
        · intro q hq
          rcases List.mem_cons.mp hq with rfl | hq'
          · exact Nat.le_of_lt hlt
          · exact hrmax q hq'
        · intro q hq
          rcases List.mem_cons.mp hq with rfl | hq'
          · exact hlt
          · exact hl₁ q hq'
      · rw [if_neg hlt] at hp
        subst hp
        refine ⟨List.mem_cons_self _ _, ?_, [], b :: t', rfl, by simp⟩
        intro q hq
        rcases List.mem_cons.mp hq with rfl | hq'
        · exact Nat.le_refl _
        · exact Nat.le_trans (hrmax q hq') (Nat.le_of_not_lt hlt)

/-- Combined specification of `max(build-counts(l), key=value)`: the
result is the element of `l` with maximal multiplicity whose first
occurrence in `l` is earliest among the tied maximal elements. -/
theorem pyMax_buildCounts_spec {α : Type} [DecidableEq α] (l : List α) (hl : l ≠ []) :
    ∃ c, (pyMaxBySnd (buildCounts l)).map Prod.fst = some c ∧ c ∈ l ∧
      (∀ b ∈ l, l.count b ≤ l.count c) ∧
      (∀ b ∈ l, l.count b = l.count c → l.indexOf c ≤ l.indexOf b) := by
  obtain ⟨hnd, hmem, hval, hord⟩ := buildCounts_spec l
  obtain ⟨a, ha⟩ := List.exists_mem_of_ne_nil l hl
  have hbne : buildCounts l ≠ [] := by
    intro h0
    have hin := (hmem a).mpr ha
    rw [h0] at hin
    simp at hin
  obtain ⟨p, hp⟩ := pyMax_isSome _ hbne
  obtain ⟨hpmem, hpmax, l₁, l₂, hdec, hl₁⟩ := pyMax_spec _ p hp
  have hp2 : p.2 = l.count p.1 := hval p hpmem
  refine ⟨p.1, by rw [hp]; rfl,
    (hmem p.1).mp (List.mem_map_of_mem Prod.fst hpmem), ?_, ?_⟩
  · intro b hb
    obtain ⟨q, hq, hq1⟩ := List.mem_map.mp ((hmem b).mpr hb)
    have hle := hpmax q hq
    have hq2 : q.2 = l.count b := by rw [hval q hq, hq1]
    omega
  · intro b hb hcount
    by_cases hbc : b = p.1
    · rw [hbc]
    · obtain ⟨q, hq, hq1⟩ := List.mem_map.mp ((hmem b).mpr hb)
      have hq2 : q.2 = l.count b := by rw [hval q hq, hq1]
      have hq' := hq
      rw [hdec] at hq'
      rcases List.mem_append.mp hq' with hql | hqr
      · have := hl₁ q hql
        omega
      · rcases List.mem_cons.mp hqr with hqp | hql₂
        · rw [hqp] at hq1
          exact absurd hq1.symm hbc
        · have hkeys : (buildCounts l).map Prod.fst =
              l₁.map Prod.fst ++ p.1 :: l₂.map Prod.fst := by
            rw [hdec]
            simp
          have hndk := hnd
          rw [hkeys, List.nodup_append] at hndk
          have hpnotin : p.1 ∉ l₁.map Prod.fst := fun hmem1 =>
            hndk.2.2 hmem1 (List.mem_cons_self _ _)
          have hbin2 : b ∈ l₂.map Prod.fst := by
            rw [← hq1]
            exact List.mem_map_of_mem _ hql₂
          have hbnotin : b ∉ l₁.map Prod.fst := fun hmem1 =>
            hndk.2.2 hmem1 (List.mem_cons_of_mem _ hbin2)
          have hidx : ((buildCounts l).map Prod.fst).indexOf p.1 ≤
              ((buildCounts l).map Prod.fst).indexOf b := by
            rw [hkeys, List.indexOf_append_of_not_mem hpnotin,
              List.indexOf_append_of_not_mem hbnotin, List.indexOf_cons_self,
              List.indexOf_cons_ne _ (fun h => hbc h.symm)]
            omega
          exact (hord p.1 b (List.mem_map_of_mem Prod.fst hpmem)
            ((hmem b).mpr hb)).mp hidx

/-- C10: for every non-empty error list, `get_error_summary` is a
deterministic function whose `most_common_category` is a category
attaining the maximal count and, among tied categories, the one whose
first finding occurs earliest in the list (first-inserted key order);
the same rule holds for `most_common_severity`. -/
theorem error_summary_modal_tie_rule (errors : List ErrorAnalysis) (hne : errors ≠ []) :
    (∃ c, (getErrorSummary errors).mostCommonCategory = some c ∧
      c ∈ errors.map (fun e => e.category) ∧
      (∀ b ∈ errors.map (fun e => e.category),
        (errors.map (fun e => e.category)).count b ≤
          (errors.map (fun e => e.category)).count c) ∧
      (∀ b ∈ errors.map (fun e => e.category),
        (errors.map (fun e => e.category)).count b =
          (errors.map (fun e => e.category)).count c →
        (errors.map (fun e => e.category)).indexOf c ≤
          (errors.map (fun e => e.category)).indexOf b)) ∧
    (∃ s, (getErrorSummary errors).mostCommonSeverity = some s ∧
      s ∈ errors.map (fun e => e.severity) ∧
      (∀ b ∈ errors.map (fun e => e.severity),
        (errors.map (fun e => e.severity)).count b ≤
          (errors.map (fun e => e.severity)).count s) ∧
      (∀ b ∈ errors.map (fun e => e.severity),
        (errors.map (fun e => e.severity)).count b =
          (errors.map (fun e => e.severity)).count s →
        (errors.map (fun e => e.severity)).indexOf s ≤
          (errors.map (fun e => e.severity)).indexOf b)) := by
  have hmapc : errors.map (fun e => e.category) ≠ [] := by
    intro h
    exact hne (List.map_eq_nil_iff.mp h)
  have hmaps : errors.map (fun e => e.severity) ≠ [] := by
    intro h
    exact hne (List.map_eq_nil_iff.mp h)
  obtain ⟨c, hceq, hcmem, hcmax, hctie⟩ := pyMax_buildCounts_spec _ hmapc
  obtain ⟨s, hseq, hsmem, hsmax, hstie⟩ := pyMax_buildCounts_spec _ hmaps
  have hprojc : (getErrorSummary errors).mostCommonCategory =
      (pyMaxBySnd (buildCounts (errors.map (fun e => e.category)))).map Prod.fst := by
    rw [getErrorSummary, if_neg hne]
  have hprojs : (getErrorSummary errors).mostCommonSeverity =
      (pyMaxBySnd (buildCounts (errors.map (fun e => e.severity)))).map Prod.fst := by
    rw [getErrorSummary, if_neg hne]
  exact ⟨⟨c, by rw [hprojc]; exact hceq, hcmem, hcmax, hctie⟩,
    ⟨s, by rw [hprojs]; exact hseq, hsmem, hsmax, hstie⟩⟩

/-- A two-finding error list whose categories and severities both tie
at count one. -/
def tieFindings : List ErrorAnalysis :=
  [{ category := ErrorCategory.MISSING_TOOLS, severity := ErrorSeverity.HIGH,
     confidence := 9/10 },
   { category := ErrorCategory.TOOL_FAILURE, severity := ErrorSeverity.MEDIUM,
     confidence := 9/10 }]

/-- C10 (witness): the theorem applied to the two-finding tie list. -/
theorem error_summary_modal_tie_rule_witness :
    (∃ c, (getErrorSummary tieFindings).mostCommonCategory = some c ∧
      c ∈ tieFindings.map (fun e => e.category) ∧
      (∀ b ∈ tieFindings.map (fun e => e.category),
        (tieFindings.map (fun e => e.category)).count b ≤
          (tieFindings.map (fun e => e.category)).count c) ∧
      (∀ b ∈ tieFindings.map (fun e => e.category),
        (tieFindings.map (fun e => e.category)).count b =
          (tieFindings.map (fun e => e.category)).count c →
        (tieFindings.map (fun e => e.category)).indexOf c ≤
          (tieFindings.map (fun e => e.category)).indexOf b)) ∧
    (∃ s, (getErrorSummary tieFindings).mostCommonSeverity = some s ∧
      s ∈ tieFindings.map (fun e => e.severity) ∧
      (∀ b ∈ tieFindings.map (fun e => e.severity),
        (tieFindings.map (fun e => e.severity)).count b ≤
          (tieFindings.map (fun e => e.severity)).count s) ∧
      (∀ b ∈ tieFindings.map (fun e => e.severity),
        (tieFindings.map (fun e => e.severity)).count b =
          (tieFindings.map (fun e => e.severity)).count s →
        (tieFindings.map (fun e => e.severity)).indexOf s ≤
          (tieFindings.map (fun e => e.severity)).indexOf b)) :=
  error_summary_modal_tie_rule tieFindings (List.cons_ne_nil _ _)
